import Mathlib

/-!
Shallow embedding of the preorder ledger and reconciliation subsystem of the
NYT_weekly_and_preorder_release repository (the `refactor/` package and the
refund webhook listener).  Relational tables become lists of row structures,
one transaction becomes one pure state transformation, Python exceptions
become `Except`, and the wall clock (`date.today()`, `datetime.utcnow()`)
becomes an explicit parameter.
-/

namespace NYT

/-- A calendar date, as Python `datetime.date`: a (year, month, day) triple
ordered lexicographically. -/
structure YDate where
  y : Nat
  m : Nat
  d : Nat
deriving DecidableEq

/-- Strict lexicographic order on dates (Python `date` comparison). -/
def YDate.blt (a b : YDate) : Bool :=
  if a.y < b.y then true
  else if b.y < a.y then false
  else if a.m < b.m then true
  else if b.m < a.m then false
  else a.d < b.d

/-- Non-strict lexicographic order on dates. -/
def YDate.ble (a b : YDate) : Bool :=
  if a.y < b.y then true
  else if b.y < a.y then false
  else if a.m < b.m then true
  else if b.m < a.m then false
  else a.d ≤ b.d

/-- Gregorian leap-year rule, used by the `%Y-%m-%d` parse check. -/
def isLeap (y : Nat) : Bool :=
  y % 4 = 0 && (y % 100 ≠ 0 || y % 400 = 0)

/-- Number of days in a month, as validated by `datetime.strptime`. -/
def daysInMonth (y m : Nat) : Nat :=
  if m = 2 then (if isLeap y then 29 else 28)
  else if m = 4 ∨ m = 6 ∨ m = 9 ∨ m = 11 then 30
  else 31

/-- Split a character list into the groups separated by dashes. -/
def splitDash : List Char → List (List Char)
  | [] => [[]]
  | c :: rest =>
    let r := splitDash rest
    if c = '-' then [] :: r
    else
      match r with
      | [] => [[c]]
      | g :: gs => (c :: g) :: gs

/-- Numeric value of a digit group. -/
def digitsToNat (cs : List Char) : Nat :=
  cs.foldl (fun n c => n * 10 + (c.toNat - 48)) 0

/-- Embedding of `datetime.strptime(s, "%Y-%m-%d")`: three dash-separated
digit groups forming a valid calendar date; `none` models the `ValueError`
raised on malformed input. -/
def parseYMD (s : String) : Option YDate :=
  match splitDash s.toList with
  | [ys, ms, ds] =>
    if ys ≠ [] && ms ≠ [] && ds ≠ [] && (ys ++ ms ++ ds).all Char.isDigit then
      let y := digitsToNat ys
      let m := digitsToNat ms
      let d := digitsToNat ds
      if 1 ≤ m && m ≤ 12 && 1 ≤ d && d ≤ daysInMonth y m then
        some ⟨y, m, d⟩
      else none
    else none
  | _ => none

/-- A loosely typed database value for date-like columns, as the Python code
receives them: SQL NULL, a string, or a `date`/`datetime` object. -/
inductive DVal where
  | null : DVal
  | str (s : String) : DVal
  | dt (d : YDate) : DVal
deriving DecidableEq

/-- Python truthiness of such a value (`None` and `""` are falsy). -/
def DVal.truthy : DVal → Bool
  | .null => false
  | .str s => s ≠ ""
  | .dt _ => true

/-- Left-pad a numeral with zeros, for `str()` of a date object. -/
def padNum (width n : Nat) : String :=
  let s := toString n
  String.mk (List.replicate (width - s.length) '0') ++ s

/-- Python `str()` applied to such a value (`str(None) = "None"`,
`str(date(y, m, d))` is the zero-padded ISO form). -/
def DVal.toStr : DVal → String
  | .null => "None"
  | .str s => s
  | .dt d => padNum 4 d.y ++ "-" ++ padNum 2 d.m ++ "-" ++ padNum 2 d.d

/-- Python `a or b` on two optional strings (falls through on `None` and `""`). -/
def orS (a b : Option String) : Option String :=
  match a with
  | some s => if s = "" then b else some s
  | none => b

/-- Truthiness of an optional string. -/
def truthyS : Option String → Bool
  | none => false
  | some s => s ≠ ""

/-- One row of the `preorders` table. -/
structure PreorderRow where
  isbn : String
  title : String
  vendor : String
  pub_date : DVal
  tagged_preorder : Bool
  in_preorder_collection : Bool
  inventory : Option Int
deriving DecidableEq

/-- One row of the `presales` table. -/
structure PresaleRow where
  isbn : String
  order_id : String
  qty : Int
  order_date : DVal
deriving DecidableEq

/-- One row of the `presales_log` table. -/
structure PresaleLogRow where
  isbn : String
  presale_qty : Int
  last_updated : YDate
deriving DecidableEq

/-- One row of the `orders` table read by `log_presales`. -/
structure OrderRow where
  isbn : String
  qty : Int
  order_date : DVal
deriving DecidableEq

/-- One row of the `releases_log` table written by `release_preorder`. -/
structure ReleaseRow where
  isbn : String
  released_on : YDate
  approved_by : String
  inventory_on_release : Int
  total_presales : Int
deriving DecidableEq

/-- One row of the `cancellation_log` table. -/
structure CancelRow where
  isbn : String
  order_id : String
  quantity : Int
  cancelled_on : DVal
deriving DecidableEq

/-- One row of the `refund_log` table. -/
structure RefundRow where
  isbn : String
  order_id : String
  quantity : Int
  refund_date : DVal
deriving DecidableEq

/-- One row of the `sales_log` table (`order_id` is nullable there). -/
structure SaleRow where
  isbn : String
  order_id : Option String
  quantity : Int
  order_date : DVal
deriving DecidableEq

/-- One row of the `anomalies_log` table. -/
structure AnomalyRow where
  isbn : String
  reason : String
  timestamp : YDate
deriving DecidableEq

/-- The relational store.  The `releases` table (consulted by `readiness.py`
and `anomalies.py`, and created by their tests with a single `isbn` column) is
distinct from the `releases_log` table written by `release_preorder.py`. -/
structure Store where
  preorders : List PreorderRow
  presales : List PresaleRow
  presales_log : List PresaleLogRow
  orders : List OrderRow
  sales_log : List SaleRow
  cancellation_log : List CancelRow
  refund_log : List RefundRow
  releases : List String
  releases_log : List ReleaseRow
  anomalies_log : List AnomalyRow
deriving DecidableEq

/-- `release_preorder` from `refactor/src/release_preorder.py`, with the
transaction made explicit: every `cur.execute` and the final `conn.commit()`
is a numbered step at which the driver may raise (`fault n = true`); the
`except` branch rolls the whole transaction back, so a fault returns the
original store together with `False`.  Mutations accumulate in pure `let`
bindings and reach the store only at the commit point, mirroring the single
commit at the end of the `try` block. -/
def release_preorder_tx (store : Store) (isbn approver : String) (today : YDate)
    (fault : Nat → Bool) : Bool × Store :=
  if fault 0 then (false, store)
  else if store.releases_log.any (fun r => r.isbn = isbn) then (false, store)
  else if fault 1 then (false, store)
  else
    match store.preorders.find? (fun p => p.isbn = isbn) with
    | none => (false, store)
    | some row =>
      if row.tagged_preorder = false then (false, store)
      else if fault 2 then (false, store)
      else
        let presale_total :=
          match store.presales_log.find? (fun r => r.isbn = isbn) with
          | some r => r.presale_qty
          | none => 0
        if fault 3 then (false, store)
        else
          let preorders1 := store.preorders.map (fun p =>
            if p.isbn = isbn then
              { p with tagged_preorder := false, in_preorder_collection := false }
            else p)
          if fault 4 then (false, store)
          else
            let releases1 :=
              if store.releases_log.any (fun r => r.isbn = isbn) then
                store.releases_log
              else
                store.releases_log ++
                  [⟨isbn, today, approver, row.inventory.getD 0, presale_total⟩]
            if fault 5 then (false, store)
            else (true, { store with preorders := preorders1, releases_log := releases1 })

/-- `release_preorder` on a fault-free run of the transaction. -/
def release_preorder (store : Store) (isbn approver : String) (today : YDate) :
    Bool × Store :=
  release_preorder_tx store isbn approver today (fun _ => false)

/-- Aggregate presale quantity of an isbn, as computed by the
`COALESCE(SUM(s.qty), 0)` of the `LEFT JOIN presales` in `readiness.py`. -/
def presaleQtySum (presales : List PresaleRow) (isbn : String) : Int :=
  (presales.filter (fun s => s.isbn = isbn)).foldl (fun acc s => acc + s.qty) 0

/-- Outcome of one iteration of the `analyze_readiness` loop: the isbn is
appended to the ready list, the row is skipped silently, or a warning is
printed and the row is skipped. -/
inductive RowRes where
  | ready : RowRes
  | skip : RowRes
  | warn (msg : String) : RowRes
deriving DecidableEq

/-- The date-dependent tail of the `analyze_readiness` loop body, reached
once a parsed `pub_date` is in hand: skip on future date, nonpositive presale
quantity, or absent preorder markers, otherwise ready. -/
def readinessDateCheck (today : YDate) (presale_qty : Int) (row : PreorderRow)
    (pub_d : YDate) : RowRes :=
  if YDate.blt today pub_d then .skip
  else if presale_qty ≤ 0 then .skip
  else if row.tagged_preorder = false ∧ row.in_preorder_collection = false then .skip
  else .ready

/-- The `pub_date` handling of the `analyze_readiness` loop body: warn on a
NULL or unparsable value, otherwise hand the parsed date to the remaining
checks. -/
def readinessPubDate (today : YDate) (presale_qty : Int) (row : PreorderRow) :
    DVal → RowRes
  | .null => .warn ("Warning: missing pub_date for ISBN " ++ row.isbn)
  | .dt d => readinessDateCheck today presale_qty row d
  | .str s =>
    match parseYMD s with
    | none => .warn ("Warning: malformed pub_date for ISBN " ++ row.isbn)
    | some d => readinessDateCheck today presale_qty row d

/-- One iteration of the loop in `analyze_readiness`
(`refactor/src/readiness.py`).  The `released` column is the isbn joined from
the `releases` table (NULL when absent), tested for Python truthiness. -/
def readinessRow (presales : List PresaleRow) (releases : List String)
    (today : YDate) (row : PreorderRow) : RowRes :=
  if truthyS (if releases.contains row.isbn then some row.isbn else none) then
    .skip
  else readinessPubDate today (presaleQtySum presales row.isbn) row row.pub_date

/-- `analyze_readiness` from `refactor/src/readiness.py`: the ready isbns in
row order, together with the warnings printed along the way. -/
def analyze_readiness (store : Store) (today : YDate) :
    List String × List String :=
  ((store.preorders.filter (fun r =>
      readinessRow store.presales store.releases today r = .ready)).map
        (fun r => r.isbn),
   store.preorders.filterMap (fun r =>
     match readinessRow store.presales store.releases today r with
     | .warn m => some m
     | _ => none))

/-- A store with one tagged preorder row and a presale total, ready for
release: the concrete scenario of the testable-properties section. -/
def demoStore : Store :=
  { preorders := [⟨"1234567890123", "Demo Title", "Vendor", .dt ⟨2024, 1, 1⟩,
      true, true, some 5⟩]
    presales := [⟨"1234567890123", "o1", 3, .dt ⟨2023, 12, 1⟩⟩]
    presales_log := [⟨"1234567890123", 3, ⟨2024, 1, 1⟩⟩]
    orders := []
    sales_log := []
    cancellation_log := []
    refund_log := []
    releases := []
    releases_log := []
    anomalies_log := [] }

/-- `demoStore` after `release_preorder "1234567890123" "alice"` on
2024-01-02: flags cleared and one snapshot row in `releases_log`. -/
def demoStoreReleased : Store :=
  { demoStore with
    preorders := [⟨"1234567890123", "Demo Title", "Vendor", .dt ⟨2024, 1, 1⟩,
      false, false, some 5⟩]
    releases_log := [⟨"1234567890123", ⟨2024, 1, 2⟩, "alice", 5, 3⟩] }

/-- `demoStore` with a `releases_log` row for its isbn but the preorder flags
still set, the state the catalog sync produces when it re-tags a title after
its release (the drift condition the anomaly scanner calls
`Tagged preorder after release`). -/
def driftStore : Store :=
  { demoStore with
    releases_log := [⟨"1234567890123", ⟨2024, 1, 2⟩, "alice", 5, 3⟩] }

/-- A store whose single preorder row has an unparsable `pub_date` and whose
isbn is listed in the `releases` table consulted by the analyzer. -/
def maskedStore : Store :=
  { demoStore with
    preorders := [⟨"1234567890123", "Demo Title", "Vendor", .str "bad-date",
      true, false, some 5⟩]
    releases := ["1234567890123"] }

/-- `demoStore` with the `tagged_preorder` flag down but the collection flag
still up: ready by the analyzer test (either marker) yet not releasable
(`release_preorder` requires `tagged_preorder`). -/
def collOnlyStore : Store :=
  { demoStore with
    preorders := [⟨"1234567890123", "Demo Title", "Vendor", .dt ⟨2024, 1, 1⟩,
      false, true, some 5⟩] }

/-- `demoStore` with an extra preorder row whose `pub_date` is NULL. -/
def missingDateStore : Store :=
  { demoStore with
    preorders := [⟨"1234567890123", "Demo Title", "Vendor", .dt ⟨2024, 1, 1⟩,
      true, true, some 5⟩,
      ⟨"9999999999999", "No Date", "Vendor", .null, true, false, none⟩] }

/-- The `line_item` sub-object of a refunded line item. -/
structure RLineItem where
  barcode : Option String
  isbn : Option String
deriving DecidableEq

/-- One entry of a `refund_line_items` list. -/
structure RefundItem where
  line_item : RLineItem
  quantity : Int
deriving DecidableEq

/-- One entry of the `refunds` list of an order payload. -/
structure Refund where
  created_at : DVal
  refund_line_items : List RefundItem
deriving DecidableEq

/-- The order payload handed to `record_refund`. -/
structure RefundPayload where
  id : Option String
  order_id : Option String
  refunds : List Refund
deriving DecidableEq

/-- The unique-key test of `refund_log`: some row already carries this
(order_id, isbn, refund_date) triple. -/
def containsTriple (log : List RefundRow) (oid isbn : String) (rd : DVal) : Bool :=
  log.any (fun r => decide (r.order_id = oid ∧ r.isbn = isbn ∧ r.refund_date = rd))

/-- The per-item guard of the `record_refund` loop: the resolved isbn when
the item is processed, `none` when it is skipped (`not isbn or quantity <= 0`). -/
def refundItemIsbn? (item : RefundItem) : Option String :=
  match orS item.line_item.barcode item.line_item.isbn with
  | none => none
  | some isbn => if isbn = "" ∨ item.quantity ≤ 0 then none else some isbn

/-- One `INSERT ... ON CONFLICT (order_id, isbn, refund_date) DO NOTHING` of
`record_refund`, threading the log and the running `inserted` counter. -/
def refundStep (oid : String) (rd : DVal) (acc : List RefundRow × Nat)
    (item : RefundItem) : List RefundRow × Nat :=
  match refundItemIsbn? item with
  | none => acc
  | some isbn =>
    if containsTriple acc.1 oid isbn rd then acc
    else (acc.1 ++ [⟨isbn, oid, item.quantity, rd⟩], acc.2 + 1)

/-- `refund.get("created_at") or datetime.utcnow()`. -/
def refundDate (now : YDate) (refund : Refund) : DVal :=
  if refund.created_at.truthy then refund.created_at else .dt now

/-- Processing of one refund sub-object of `record_refund`. -/
def refundFold (oid : String) (now : YDate) (acc : List RefundRow × Nat)
    (refund : Refund) : List RefundRow × Nat :=
  refund.refund_line_items.foldl (refundStep oid (refundDate now refund)) acc

/-- `record_refund` from `refactor/src/record_refund.py`. -/
def record_refund (store : Store) (now : YDate) (refund_data : RefundPayload) :
    Bool × Store :=
  match orS refund_data.id refund_data.order_id with
  | none => (false, store)
  | some oid =>
    if oid = "" then (false, store)
    else if refund_data.refunds = [] then (false, store)
    else
      let res := refund_data.refunds.foldl (refundFold oid now) (store.refund_log, 0)
      (decide (0 < res.2), { store with refund_log := res.1 })

/-- The uniqueness invariant of `refund_log`: no two rows share an
(order_id, isbn, refund_date) combination. -/
def pairwiseTriple (log : List RefundRow) : Prop :=
  List.Pairwise (fun a b =>
    ¬(a.order_id = b.order_id ∧ a.isbn = b.isbn ∧ a.refund_date = b.refund_date)) log

/-- A store with every table empty. -/
def emptyStore : Store :=
  { preorders := [], presales := [], presales_log := [], orders := []
    sales_log := [], cancellation_log := [], refund_log := []
    releases := [], releases_log := [], anomalies_log := [] }

/-- The refund payload of the concrete scenario in the spec: order `o1`,
line items isbn 111 qty 1 and isbn 222 qty 2. -/
def refundDemoPayload : RefundPayload :=
  { id := some "o1", order_id := none
    refunds := [⟨.str "2024-01-05",
      [⟨⟨some "111", none⟩, 1⟩, ⟨⟨some "222", none⟩, 2⟩]⟩] }

/-- A line item of a cancelled order payload. -/
structure CLineItem where
  barcode : Option String
  isbn : Option String
  quantity : Option Int
deriving DecidableEq

/-- The order payload handed to `record_cancellation`. -/
structure CancelPayload where
  id : Option String
  order_id : Option String
  cancelled_at : DVal
  line_items : List CLineItem
deriving DecidableEq

/-- One `INSERT ... ON CONFLICT (order_id, isbn) DO NOTHING` of
`record_cancellation`. -/
def cancelStep (oid : String) (cancelled_at : DVal)
    (acc : List CancelRow × Nat) (item : CLineItem) : List CancelRow × Nat :=
  match orS item.barcode item.isbn with
  | none => acc
  | some isbn =>
    if isbn = "" ∨ item.quantity.getD 0 ≤ 0 then acc
    else if acc.1.any (fun r => decide (r.order_id = oid ∧ r.isbn = isbn)) then acc
    else (acc.1 ++ [⟨isbn, oid, item.quantity.getD 0, cancelled_at⟩], acc.2 + 1)

/-- `record_cancellation` from `refactor/src/record_cancellation.py`. -/
def record_cancellation (store : Store) (now : YDate)
    (order_data : CancelPayload) : Bool × Store :=
  match orS order_data.id order_data.order_id with
  | none => (false, store)
  | some oid =>
    if oid = "" then (false, store)
    else if order_data.line_items = [] then (false, store)
    else
      let cancelled_at :=
        if order_data.cancelled_at.truthy then order_data.cancelled_at
        else .dt now
      let res := order_data.line_items.foldl (cancelStep oid cancelled_at)
        (store.cancellation_log, 0)
      (decide (0 < res.2), { store with cancellation_log := res.1 })

/-- One element of the `items` list handed to `record_presales`; `none`
fields model absent keys. -/
structure PresaleItem where
  barcode : Option String
  isbn : Option String
  order_id : Option String
  qty : Option Int
  order_date : Option DVal
deriving DecidableEq

/-- The loop of `record_presales`: each item with a resolvable isbn is
inserted with `ON CONFLICT DO NOTHING` on the (isbn, order_id) unique key;
an item without isbn is skipped; `item["order_id"]` on an item lacking the
key raises `KeyError`, modelled as `Except.error`, which aborts the batch
and rolls the transaction back. -/
def record_presales_go (now : YDate) (log : List PresaleRow) :
    List PresaleItem → Except String (List PresaleRow)
  | [] => .ok log
  | item :: rest =>
    match orS item.barcode item.isbn with
    | none => record_presales_go now log rest
    | some isbn =>
      if isbn = "" then record_presales_go now log rest
      else
        match item.order_id with
        | none => .error "KeyError: order_id"
        | some oid =>
          let log1 :=
            if log.any (fun r => decide (r.isbn = isbn ∧ r.order_id = oid)) then log
            else log ++ [⟨isbn, oid, item.qty.getD 1, item.order_date.getD (.dt now)⟩]
          record_presales_go now log1 rest

/-- `record_presales` from `refactor/src/record_presales.py`; an uncaught
`KeyError` leaves the store unchanged (the connection context manager rolls
back on exception). -/
def record_presales (store : Store) (now : YDate) (items : List PresaleItem) :
    Except String Store :=
  match record_presales_go now store.presales items with
  | .ok log => .ok { store with presales := log }
  | .error e => .error e

/-- A line item of an order payload handed to `record_sales`. -/
structure SLineItem where
  barcode : Option String
  isbn : Option String
  quantity : Option Int
deriving DecidableEq

/-- The order payload handed to `record_sales`. -/
structure SalesPayload where
  id : Option String
  order_id : Option String
  created_at : DVal
  order_date : DVal
  line_items : List SLineItem
deriving DecidableEq

/-- Python `a or b` on two date-like values. -/
def orD (a b : DVal) : DVal :=
  if a.truthy then a else b

/-- SQL equality of two nullable `order_id` values for the unique-key check
(NULLs never compare equal). -/
def sqlEqOpt (a b : Option String) : Bool :=
  match a, b with
  | some x, some y => x = y
  | _, _ => false

/-- One insert of the `record_sales` loop: skipped when the isbn is missing
or belongs to a preorder title. -/
def salesStep (preorder_isbns : List String) (oid : Option String)
    (odate : DVal) (acc : List SaleRow × Nat) (item : SLineItem) :
    List SaleRow × Nat :=
  match orS item.barcode item.isbn with
  | none => acc
  | some isbn =>
    if isbn = "" ∨ preorder_isbns.contains isbn then acc
    else if acc.1.any (fun r => sqlEqOpt r.order_id oid && decide (r.isbn = isbn)) then acc
    else (acc.1 ++ [⟨isbn, oid, item.quantity.getD 1, odate⟩], acc.2 + 1)

/-- `record_sales` from `refactor/src/record_sales.py`. -/
def record_sales (store : Store) (now : YDate) (order_data : SalesPayload) :
    Bool × Store :=
  let preorder_isbns := store.preorders.map (fun p => p.isbn)
  let oid := orS order_data.id order_data.order_id
  let odate := orD order_data.created_at (orD order_data.order_date (.dt now))
  let res := order_data.line_items.foldl (salesStep preorder_isbns oid odate)
    (store.sales_log, 0)
  (decide (0 < res.2), { store with sales_log := res.1 })

/-- `is_valid_date` from `refactor/src/anomalies.py`: a `date` object, or a
truthy string parsing as `YYYY-MM-DD`. -/
def is_valid_date : DVal → Bool
  | .dt _ => true
  | .null => false
  | .str s => if s = "" then false else (parseYMD s).isSome

/-- `is_valid_isbn` from `refactor/src/anomalies.py`: a 13 digit numeric
string (`re.fullmatch` of thirteen digits). -/
def is_valid_isbn (s : String) : Bool :=
  s.toList.length = 13 && s.toList.all Char.isDigit

/-- The calendar day before a date (for `timedelta` subtraction). -/
def prevDay (d : YDate) : YDate :=
  if 1 < d.d then ⟨d.y, d.m, d.d - 1⟩
  else if 1 < d.m then ⟨d.y, d.m - 1, daysInMonth d.y (d.m - 1)⟩
  else ⟨d.y - 1, 12, 31⟩

/-- `today - timedelta(days=n)`. -/
def subDays (d : YDate) : Nat → YDate
  | 0 => d
  | n + 1 => subDays (prevDay d) n

/-- The reasons fired for one product by the `log_anomalies` scan, in the
order the source appends them. -/
def anomalyReasons (today : YDate) (released : List String)
    (prod : PreorderRow) : List String :=
  (if prod.pub_date.truthy = false then ["Missing pub_date"]
   else if is_valid_date prod.pub_date = false then ["Malformed pub_date"]
   else
     let pd :=
       match prod.pub_date with
       | .dt d => d
       | v => (parseYMD v.toStr).getD ⟨0, 0, 0⟩
     if YDate.blt pd (subDays today 30) then ["pub_date older than 30 days"]
     else []) ++
  (if is_valid_isbn prod.isbn then [] else ["Missing or malformed ISBN"]) ++
  (if released.contains prod.isbn && prod.tagged_preorder then
    ["Tagged preorder after release"]
   else [])

/-- One conditional `INSERT INTO anomalies_log` of `log_anomalies`,
threading the log and the in-memory `existing` set of (isbn, reason) pairs. -/
def anomalyInsert (today : YDate) (isbn : String)
    (acc : List AnomalyRow × List (String × String)) (reason : String) :
    List AnomalyRow × List (String × String) :=
  if acc.2.any (fun pr => decide (pr = (isbn, reason))) then acc
  else (acc.1 ++ [⟨isbn, reason, today⟩], acc.2 ++ [(isbn, reason)])

/-- Processing of one product by `log_anomalies`. -/
def anomalyProduct (today : YDate) (released : List String)
    (acc : List AnomalyRow × List (String × String)) (prod : PreorderRow) :
    List AnomalyRow × List (String × String) :=
  (anomalyReasons today released prod).foldl (anomalyInsert today prod.isbn) acc

/-- `log_anomalies` from `refactor/src/anomalies.py`: scan the
preorder-tagged products, fire reasons, insert every (isbn, reason) pair not
already present.  Note it reads the released set from the `releases` table. -/
def log_anomalies (store : Store) (today : YDate) : Store :=
  { store with anomalies_log :=
      ((store.preorders.filter (fun p => p.tagged_preorder)).foldl
        (anomalyProduct today store.releases)
        (store.anomalies_log,
         store.anomalies_log.map (fun a => (a.isbn, a.reason)))).1 }

/-- Normalisation of a date-like value in `log_presales`
(`refactor/src/presales.py`): a `date`/`datetime` object is used as is,
anything else goes through `datetime.fromisoformat(str(value))`, which raises
(`Except.error`) on unparsable input. -/
def fromiso : DVal → Except String YDate
  | .dt d => .ok d
  | v =>
    match parseYMD v.toStr with
    | some d => .ok d
    | none => .error "ValueError"

/-- The `SELECT o.isbn, o.qty, o.order_date, p.pub_date FROM orders o JOIN
preorders p ON o.isbn = p.isbn` of `log_presales`. -/
def presalesJoin (store : Store) : List (OrderRow × DVal) :=
  store.orders.flatMap (fun o =>
    (store.preorders.filter (fun p => p.isbn = o.isbn)).map
      (fun p => (o, p.pub_date)))

/-- `totals[isbn] += qty` on the `defaultdict(int)` of `log_presales`,
keyed in first-touch order. -/
def bumpTotal (acc : List (String × Int)) (isbn : String) (qty : Int) :
    List (String × Int) :=
  if acc.any (fun kv => decide (kv.1 = isbn)) then
    acc.map (fun kv => if kv.1 = isbn then (kv.1, kv.2 + qty) else kv)
  else acc ++ [(isbn, qty)]

/-- One iteration of the aggregation loop of `log_presales`: skip on NULL
`pub_date`, normalise both dates (possibly raising), skip when the order is
dated on or after the pub date, otherwise add the quantity. -/
def presalesStep (acc : List (String × Int)) (o : OrderRow) (pd : DVal) :
    Except String (List (String × Int)) :=
  if pd = DVal.null then .ok acc
  else
    match fromiso o.order_date, fromiso pd with
    | .error e, _ => .error e
    | .ok _, .error e => .error e
    | .ok od, .ok pdd =>
      if YDate.ble pdd od then .ok acc
      else .ok (bumpTotal acc o.isbn o.qty)

/-- The whole aggregation loop of `log_presales`. -/
def presalesTotals : List (OrderRow × DVal) → List (String × Int) →
    Except String (List (String × Int))
  | [], acc => .ok acc
  | (o, pd) :: rest, acc =>
    match presalesStep acc o pd with
    | .error e => .error e
    | .ok acc2 => presalesTotals rest acc2

/-- The `INSERT ... ON CONFLICT (isbn) DO UPDATE` upsert into
`presales_log`. -/
def upsertPresaleLog (now : YDate) (log : List PresaleLogRow) (isbn : String)
    (qty : Int) : List PresaleLogRow :=
  if log.any (fun r => decide (r.isbn = isbn)) then
    log.map (fun r => if r.isbn = isbn then ⟨r.isbn, qty, now⟩ else r)
  else log ++ [⟨isbn, qty, now⟩]

/-- `log_presales` from `refactor/src/presales.py`. -/
def log_presales (store : Store) (now : YDate) : Except String Store :=
  match presalesTotals (presalesJoin store) [] with
  | .error e => .error e
  | .ok totals =>
    let newlog := totals.foldl
      (fun log kv => upsertPresaleLog now log kv.1 kv.2) store.presales_log
    .ok { store with presales_log := newlog }

/-- The `line_item` sub-object of a refund line in the listener payload. -/
structure WLineItem where
  barcode : Option String
  title : Option String
deriving DecidableEq

/-- One entry of a `refund_line_items` list in the listener payload. -/
structure WRefundLine where
  line_item : WLineItem
  line_item_id : Option String
  quantity : Option Int
deriving DecidableEq

/-- One refund sub-object of the listener payload. -/
structure WRefund where
  refund_line_items : List WRefundLine
deriving DecidableEq

/-- The JSON order payload of the order-update webhook. -/
structure WPayload where
  id : Option String
  order_id : Option String
  refunds : List WRefund
deriving DecidableEq

/-- One CSV row of the tracking ledger / refund audit log of the listener. -/
structure TrackRow where
  isbn : String
  title : String
  pub_date : String
  quantity : Int
  status : String
  order_id : String
  line_item_id : String
deriving DecidableEq

/-- The listener's file-based state: released isbns from
`preorder_history.json`, the tracking CSV, and the refund audit-log CSV. -/
structure ListenerState where
  released : List String
  tracking : List TrackRow
  refund_log : List TrackRow
deriving DecidableEq

/-- Python `str()` of an optional value as stored in the CSV
(`str(None) = "None"`). -/
def strOfOpt : Option String → String
  | none => "None"
  | some s => s

/-- `has_been_logged` from `preorder_refund_listener/utils.py`: some audit
row carries this order id and line-item id. -/
def has_been_logged (log : List TrackRow) (order_id line_item_id : String) : Bool :=
  log.any (fun r => decide (r.order_id = order_id ∧ r.line_item_id = line_item_id))

/-- `process_refund_event` from `preorder_refund_listener/utils.py`: skip
released or isbn-less items, skip nonpositive quantities, deduplicate by
(order id, line-item id) against the audit log, append a negative-quantity
row to tracking and audit log, and count. -/
def process_refund_event (st : ListenerState) (payload : WPayload) :
    Nat × ListenerState :=
  let order_id := orS payload.id payload.order_id
  payload.refunds.foldl (fun acc refund =>
    refund.refund_line_items.foldl (fun (acc : Nat × ListenerState) line =>
      let isbn := (line.line_item.barcode.getD "").trim
      if isbn = "" ∨ st.released.contains isbn then acc
      else if line.quantity.getD 0 ≤ 0 then acc
      else
        let record : TrackRow := ⟨isbn, (line.line_item.title.getD "").trim, "",
          -(line.quantity.getD 0), "Refund", strOfOpt order_id,
          strOfOpt line.line_item_id⟩
        if has_been_logged acc.2.refund_log (strOfOpt order_id)
            (strOfOpt line.line_item_id) then acc
        else (acc.1 + 1,
          { acc.2 with
            tracking := acc.2.tracking ++ [record]
            refund_log := acc.2.refund_log ++ [record] })) acc) (0, st)

/-- The HTTP outcome of the webhook handler: 401 on signature mismatch, the
processed count on success, 500 when `json.loads` raises. -/
inductive HttpResult where
  | unauthorized : HttpResult
  | ok (processed : Nat) : HttpResult
  | serverError : HttpResult
deriving DecidableEq

/-- `handle_order_update` from `preorder_refund_listener/main.py`,
parameterized by the MAC function (the base64-encoded HMAC-SHA256 of the raw
body under the shared secret, computed by the Python standard library) and
the JSON parser: compare the header against the computed digest
(`hmac.compare_digest` is functionally equality) before touching the body;
only on a match parse the raw body and dispatch it to
`process_refund_event`. -/
def handle_order_update (hmacOf : String → String)
    (parse : String → Option WPayload) (st : ListenerState)
    (raw_body hmac_header : String) : HttpResult × ListenerState :=
  if ¬(hmacOf raw_body = hmac_header) then (.unauthorized, st)
  else
    match parse raw_body with
    | none => (.serverError, st)
    | some payload =>
      let res := process_refund_event st payload
      (.ok res.1, res.2)

/-- The listener payload of the mock refund test in the listener source. -/
def wDemoPayload : WPayload :=
  ⟨some "1234567890", none,
    [⟨[⟨⟨some "9781234567890", some "Test Book Title"⟩, some "987654321", some 1⟩]⟩]⟩

/-- A listener state with empty history and logs. -/
def wEmptyState : ListenerState := ⟨[], [], []⟩

/-- After the flag update of `release_preorder`, every `preorders` row for
the released isbn has both preorder flags cleared. -/
lemma flags_cleared (store : Store) (isbn : String) :
    ∀ p ∈ store.preorders.map (fun p =>
        if p.isbn = isbn then
          { p with tagged_preorder := false, in_preorder_collection := false }
        else p),
      p.isbn = isbn → p.tagged_preorder = false ∧ p.in_preorder_collection = false := by
  intro p hp hpi
  obtain ⟨q, hq, rfl⟩ := List.mem_map.1 hp
  by_cases hqi : q.isbn = isbn
  · rw [if_pos hqi] at hpi ⊢
    exact ⟨rfl, rfl⟩
  · rw [if_neg hqi] at hpi ⊢
    exact absurd hpi hqi

/-- Every run of the release transaction either fails leaving the store
untouched, or succeeds with the release fully applied: a `releases_log` row
for the isbn exists and every `preorders` row for the isbn has both flags
cleared. -/
lemma release_tx_spec (store : Store) (isbn approver : String) (today : YDate)
    (fault : Nat → Bool) (b : Bool) (s' : Store) :
    release_preorder_tx store isbn approver today fault = (b, s') →
    (b = false ∧ s' = store) ∨
    (b = true ∧ (∃ r ∈ s'.releases_log, r.isbn = isbn) ∧
     (∀ p ∈ s'.preorders, p.isbn = isbn →
        p.tagged_preorder = false ∧ p.in_preorder_collection = false)) := by
  intro h
  unfold release_preorder_tx at h
  repeat' split at h
  all_goals injection h with h1 h2
  all_goals subst h1
  all_goals subst h2
  all_goals try (exact Or.inl ⟨rfl, rfl⟩)
  all_goals right
  all_goals refine ⟨rfl, ?_, ?_⟩
  all_goals try exact ⟨_, List.mem_append_right _ (List.mem_singleton_self _), rfl⟩
  all_goals try exact flags_cleared store isbn

/-- If a `releases_log` row for the isbn already exists, the transaction
fails and leaves the store untouched (the guard at the top of
`release_preorder`), whatever the fault pattern. -/
lemma release_tx_of_released (store : Store) (isbn approver : String)
    (today : YDate) (fault : Nat → Bool)
    (hmem : store.releases_log.any (fun r => r.isbn = isbn) = true) :
    release_preorder_tx store isbn approver today fault = (false, store) := by
  unfold release_preorder_tx
  split
  all_goals rfl

/-- Claim C1: `release_preorder` succeeds at most once per isbn.  After a
call that returned `true`, a second call on the same isbn returns `false` and
returns the store exactly as the first call left it: no additional
`releases_log` row is inserted and the `preorders` flags are not mutated
again. -/
theorem release_preorder_single_release (store : Store) (isbn a1 a2 : String)
    (t1 t2 : YDate) (s1 : Store)
    (h : release_preorder store isbn a1 t1 = (true, s1)) :
    release_preorder s1 isbn a2 t2 = (false, s1) := by
  have hs := release_tx_spec store isbn a1 t1 (fun _ => false) true s1 h
  rcases hs with ⟨hb, _⟩ | ⟨_, ⟨r, hr, hri⟩, _⟩
  · cases hb
  · have hany : s1.releases_log.any (fun r => r.isbn = isbn) = true :=
      List.any_eq_true.2 ⟨r, hr, decide_eq_true hri⟩
    exact release_tx_of_released s1 isbn a2 t2 (fun _ => false) hany

/-- Witness for C1: on the concrete demo store the first release succeeds and
the second call on the same isbn fails, leaving the store unchanged. -/
theorem release_preorder_single_release_witness :
    release_preorder demoStore "1234567890123" "alice" ⟨2024, 1, 2⟩ =
      (true, demoStoreReleased) ∧
    release_preorder demoStoreReleased "1234567890123" "bob" ⟨2024, 1, 3⟩ =
      (false, demoStoreReleased) :=
  ⟨by decide, release_preorder_single_release demoStore "1234567890123" "alice"
      "bob" ⟨2024, 1, 2⟩ ⟨2024, 1, 3⟩ demoStoreReleased (by decide)⟩

/-- Claim C3: the release transaction is atomic.  Whatever the fault pattern
(an exception at any `cur.execute` or at `conn.commit`), the call either
returns failure with the store exactly as it was (full rollback), or returns
success with the release fully applied: a `releases_log` row for the isbn
exists and every `preorders` row for the isbn has both flags cleared.  In
particular the store is never left with flags flipped but no release row, or
with a release row from this call but unflipped flags. -/
theorem release_preorder_tx_atomic (store : Store) (isbn approver : String)
    (today : YDate) (fault : Nat → Bool) (b : Bool) (s' : Store)
    (h : release_preorder_tx store isbn approver today fault = (b, s')) :
    (b = false ∧ s' = store) ∨
    (b = true ∧ (∃ r ∈ s'.releases_log, r.isbn = isbn) ∧
     (∀ p ∈ s'.preorders, p.isbn = isbn →
        p.tagged_preorder = false ∧ p.in_preorder_collection = false)) :=
  release_tx_spec store isbn approver today fault b s' h

/-- Witness for C3: a fault injected at the commit step (step 5) rolls the
whole demo release back, and the fault-free run applies it fully. -/
theorem release_preorder_tx_atomic_witness :
    release_preorder_tx demoStore "1234567890123" "alice" ⟨2024, 1, 2⟩
        (fun n => n = 5) = (false, demoStore) ∧
      ((false = false ∧ demoStore = demoStore) ∨
       (false = true ∧
        (∃ r ∈ demoStore.releases_log, r.isbn = "1234567890123") ∧
        (∀ p ∈ demoStore.preorders, p.isbn = "1234567890123" →
          p.tagged_preorder = false ∧ p.in_preorder_collection = false))) :=
  ⟨by decide,
    release_preorder_tx_atomic demoStore "1234567890123" "alice" ⟨2024, 1, 2⟩
      (fun n => n = 5) false demoStore (by decide)⟩

/-- Claim C2 (failing part, evaluated at the failing input): `driftStore` has
a Release record (a `releases_log` row) for isbn 1234567890123, yet
`analyze_readiness` still lists that isbn as ready, because the analyzer
consults a table named `releases` while the release finalizer writes
`releases_log`. -/
theorem analyze_readiness_release_record_ignored :
    (∃ r ∈ driftStore.releases_log, r.isbn = "1234567890123") ∧
    "1234567890123" ∈ (analyze_readiness driftStore ⟨2024, 6, 1⟩).1 := by
  decide

/-- A row whose `pub_date` is NULL or fails to parse is never ready. -/
lemma readinessRow_bad_not_ready (presales : List PresaleRow)
    (releases : List String) (today : YDate) (bad : PreorderRow)
    (hbad : bad.pub_date = .null ∨
      ∃ s, bad.pub_date = .str s ∧ parseYMD s = none) :
    readinessRow presales releases today bad ≠ .ready := by
  have hpd : ∀ q : Int, readinessPubDate today q bad bad.pub_date ≠ .ready := by
    intro q
    rcases hbad with h | ⟨s, hs, hp⟩
    · rw [h]
      intro hc; cases hc
    · rw [hs]
      simp only [readinessPubDate, hp]
      intro hc; cases hc
  unfold readinessRow
  cases ht : truthyS (if (releases.contains bad.isbn) = true then some bad.isbn
      else none)
  · rw [if_neg (by simp)]
    exact hpd _
  · rw [if_pos rfl]
    intro hc; cases hc

/-- A row whose `pub_date` is NULL gets the missing-date warning, provided
the release check did not already skip it. -/
lemma readinessRow_null_warn (presales : List PresaleRow)
    (releases : List String) (today : YDate) (bad : PreorderRow)
    (hrel : releases.contains bad.isbn = false) (h : bad.pub_date = .null) :
    readinessRow presales releases today bad =
      .warn ("Warning: missing pub_date for ISBN " ++ bad.isbn) := by
  unfold readinessRow
  rw [hrel, h]
  rfl

/-- A row whose `pub_date` fails to parse gets the malformed-date warning,
provided the release check did not already skip it. -/
lemma readinessRow_str_warn (presales : List PresaleRow)
    (releases : List String) (today : YDate) (bad : PreorderRow) (s : String)
    (hrel : releases.contains bad.isbn = false) (h : bad.pub_date = .str s)
    (hp : parseYMD s = none) :
    readinessRow presales releases today bad =
      .warn ("Warning: malformed pub_date for ISBN " ++ bad.isbn) := by
  unfold readinessRow
  rw [hrel, h]
  simp only [readinessPubDate, hp]
  rfl

/-- Claim C8 (counterexample to the claim as stated): in `maskedStore` the
single preorder row has an unparsable `pub_date`, the row is excluded and
nothing is raised, but no diagnostic is emitted either, because the release
check of the loop runs first and skips the row silently. -/
theorem analyze_readiness_malformed_no_warn_cex :
    parseYMD "bad-date" = none ∧
    maskedStore.preorders.map (fun p => p.pub_date) = [DVal.str "bad-date"] ∧
    analyze_readiness maskedStore ⟨2024, 6, 1⟩ = ([], []) := by
  decide

/-- Claim C8 (amended): `analyze_readiness` is total on rows with missing or
unparsable `pub_date` — such a row never reaches the ready set and the other
rows are analyzed exactly as if it were absent — and the diagnostic for it is
emitted whenever the row was not already skipped by the preceding
release check. -/
theorem analyze_readiness_malformed_excluded (store : Store) (today : YDate)
    (l1 l2 : List PreorderRow) (bad : PreorderRow)
    (hsplit : store.preorders = l1 ++ bad :: l2)
    (hbad : bad.pub_date = .null ∨
      ∃ s, bad.pub_date = .str s ∧ parseYMD s = none) :
    (analyze_readiness store today).1 =
      (analyze_readiness { store with preorders := l1 ++ l2 } today).1 ∧
    (store.releases.contains bad.isbn = false →
      ("Warning: missing pub_date for ISBN " ++ bad.isbn)
          ∈ (analyze_readiness store today).2 ∨
      ("Warning: malformed pub_date for ISBN " ++ bad.isbn)
          ∈ (analyze_readiness store today).2) := by
  have hnr := readinessRow_bad_not_ready store.presales store.releases today bad hbad
  constructor
  · have hfb : (decide (readinessRow store.presales store.releases today bad =
        RowRes.ready)) = false := decide_eq_false hnr
    simp only [analyze_readiness]
    rw [hsplit]
    simp [List.filter_append, List.filter_cons, hfb]
  · intro hrel
    rcases hbad with h | ⟨s, hs, hp⟩
    · left
      have hw := readinessRow_null_warn store.presales store.releases today bad hrel h
      simp only [analyze_readiness]
      refine List.mem_filterMap.2 ⟨bad, ?_, ?_⟩
      · rw [hsplit]
        exact List.mem_append_right _ (List.mem_cons_self _ _)
      · rw [hw]
    · right
      have hw := readinessRow_str_warn store.presales store.releases today bad s hrel hs hp
      simp only [analyze_readiness]
      refine List.mem_filterMap.2 ⟨bad, ?_, ?_⟩
      · rw [hsplit]
        exact List.mem_append_right _ (List.mem_cons_self _ _)
      · rw [hw]

/-- Witness for the amended C8: in `missingDateStore` the NULL-dated row
produces its diagnostic and the ready analysis of the other row proceeds. -/
theorem analyze_readiness_malformed_excluded_witness :
    missingDateStore.releases.contains "9999999999999" = false ∧
    (("Warning: missing pub_date for ISBN " ++ "9999999999999")
        ∈ (analyze_readiness missingDateStore ⟨2024, 6, 1⟩).2 ∨
     ("Warning: malformed pub_date for ISBN " ++ "9999999999999")
        ∈ (analyze_readiness missingDateStore ⟨2024, 6, 1⟩).2) :=
  ⟨by decide,
    (analyze_readiness_malformed_excluded missingDateStore ⟨2024, 6, 1⟩
      [⟨"1234567890123", "Demo Title", "Vendor", .dt ⟨2024, 1, 1⟩,
        true, true, some 5⟩] []
      ⟨"9999999999999", "No Date", "Vendor", .null, true, false, none⟩
      rfl (Or.inl rfl)).2 (by decide)⟩

/-- In a list of rows with pairwise distinct isbns, `find?` on an isbn
returns exactly the row carrying it. -/
lemma find?_first (l1 l2 : List PreorderRow) (row : PreorderRow)
    (hnodup : ((l1 ++ row :: l2).map (fun p => p.isbn)).Nodup) :
    (l1 ++ row :: l2).find? (fun p => p.isbn = row.isbn) = some row := by
  induction l1 with
  | nil =>
    exact List.find?_cons_of_pos _ (by simp)
  | cons a t ih =>
    rw [List.cons_append] at hnodup ⊢
    have hne : ¬(a.isbn = row.isbn) := by
      intro he
      have hmem : a.isbn ∈ ((t ++ row :: l2).map (fun p => p.isbn)) := by
        rw [he]
        exact List.mem_map_of_mem _ (List.mem_append_right _ (List.mem_cons_self _ _))
      exact (List.nodup_cons.1 (by simpa using hnodup)).1 hmem
    rw [List.find?_cons_of_neg _ (by simpa using hne)]
    exact ih (List.nodup_cons.1 (by simpa using hnodup)).2

/-- Claim C10: a row whose `tagged_preorder` flag is down but whose
`in_preorder_collection` flag is up, with a past parsable pub date, positive
presale total, and no release row in either release table, is listed as ready
by `analyze_readiness`, yet `release_preorder` on its isbn returns `false`
and leaves the store unchanged: the readiness marker test (either flag) is
strictly weaker than the release precondition (`tagged_preorder` only). -/
theorem readiness_marker_weaker_than_release (store : Store)
    (today rtoday : YDate) (approver : String) (l1 l2 : List PreorderRow)
    (row : PreorderRow) (d : YDate)
    (hsplit : store.preorders = l1 ++ row :: l2)
    (hnodup : (store.preorders.map (fun p => p.isbn)).Nodup)
    (htag : row.tagged_preorder = false)
    (hcoll : row.in_preorder_collection = true)
    (hpd : row.pub_date = .dt d ∨ ∃ s, row.pub_date = .str s ∧ parseYMD s = some d)
    (hpast : YDate.blt today d = false)
    (hqty : 0 < presaleQtySum store.presales row.isbn)
    (hnorel : store.releases.contains row.isbn = false)
    (hnolog : store.releases_log.any (fun r => r.isbn = row.isbn) = false) :
    row.isbn ∈ (analyze_readiness store today).1 ∧
    release_preorder store row.isbn approver rtoday = (false, store) := by
  constructor
  · have hdc : readinessDateCheck today (presaleQtySum store.presales row.isbn)
        row d = .ready := by
      unfold readinessDateCheck
      rw [if_neg (by simp [hpast]), if_neg (not_le.2 hqty),
        if_neg (by simp [hcoll])]
    have hready : readinessRow store.presales store.releases today row = .ready := by
      unfold readinessRow
      rw [hnorel, if_neg (by simp [truthyS])]
      rcases hpd with h | ⟨s, hs, hp⟩
      · rw [h]
        exact hdc
      · rw [hs]
        simp only [readinessPubDate, hp]
        exact hdc
    simp only [analyze_readiness]
    refine List.mem_map_of_mem _ (List.mem_filter.2 ⟨?_, decide_eq_true hready⟩)
    rw [hsplit]
    exact List.mem_append_right _ (List.mem_cons_self _ _)
  · have hfind : store.preorders.find? (fun p => p.isbn = row.isbn) = some row := by
      rw [hsplit]
      exact find?_first l1 l2 row (hsplit ▸ hnodup)
    unfold release_preorder release_preorder_tx
    simp [hnolog, hfind, htag]

/-- Witness for C10: the collection-only demo store is ready per the analyzer
but not releasable. -/
theorem readiness_marker_weaker_than_release_witness :
    collOnlyStore.releases_log = [] ∧
    "1234567890123" ∈ (analyze_readiness collOnlyStore ⟨2024, 6, 1⟩).1 ∧
    release_preorder collOnlyStore "1234567890123" "alice" ⟨2024, 6, 1⟩ =
      (false, collOnlyStore) :=
  ⟨rfl,
    readiness_marker_weaker_than_release collOnlyStore ⟨2024, 6, 1⟩ ⟨2024, 6, 1⟩
      "alice" []
      []
      ⟨"1234567890123", "Demo Title", "Vendor", .dt ⟨2024, 1, 1⟩,
        false, true, some 5⟩
      ⟨2024, 1, 1⟩ rfl (by decide) rfl rfl (Or.inl rfl) (by decide) (by decide)
      (by decide) (by decide)⟩

/-- A triple already present stays present when the log grows. -/
lemma containsTriple_append (log ext : List RefundRow) (oid isbn : String)
    (rd : DVal) (h : containsTriple log oid isbn rd = true) :
    containsTriple (log ++ ext) oid isbn rd = true := by
  unfold containsTriple at h ⊢
  rw [List.any_append, h, Bool.true_or]

/-- Equation lemma: an insert step for a skipped item. -/
lemma refundStep_eq_none (oid : String) (rd : DVal) (acc : List RefundRow × Nat)
    (item : RefundItem) (h : refundItemIsbn? item = none) :
    refundStep oid rd acc item = acc := by
  unfold refundStep
  rw [h]

/-- Equation lemma: an insert step for a processed item. -/
lemma refundStep_eq_some (oid : String) (rd : DVal) (acc : List RefundRow × Nat)
    (item : RefundItem) (isbn : String) (h : refundItemIsbn? item = some isbn) :
    refundStep oid rd acc item =
      if containsTriple acc.1 oid isbn rd then acc
      else (acc.1 ++ [⟨isbn, oid, item.quantity, rd⟩], acc.2 + 1) := by
  unfold refundStep
  rw [h]

/-- One refund insert only appends to the log. -/
lemma refundStep_grows (oid : String) (rd : DVal) (acc : List RefundRow × Nat)
    (item : RefundItem) :
    ∃ ext, (refundStep oid rd acc item).1 = acc.1 ++ ext := by
  cases hi : refundItemIsbn? item with
  | none =>
    rw [refundStep_eq_none oid rd acc item hi]
    exact ⟨[], (List.append_nil _).symm⟩
  | some isbn =>
    rw [refundStep_eq_some oid rd acc item isbn hi]
    by_cases hc : containsTriple acc.1 oid isbn rd = true
    · rw [if_pos hc]
      exact ⟨[], (List.append_nil _).symm⟩
    · rw [if_neg hc]
      exact ⟨[⟨isbn, oid, item.quantity, rd⟩], rfl⟩

/-- A whole item loop only appends to the log. -/
lemma foldl_refundStep_grows (oid : String) (rd : DVal) :
    ∀ (items : List RefundItem) (acc : List RefundRow × Nat),
      ∃ ext, (items.foldl (refundStep oid rd) acc).1 = acc.1 ++ ext := by
  intro items
  induction items with
  | nil => exact fun acc => ⟨[], (List.append_nil _).symm⟩
  | cons a rest ih =>
    intro acc
    rw [List.foldl_cons]
    obtain ⟨e1, h1⟩ := refundStep_grows oid rd acc a
    obtain ⟨e2, h2⟩ := ih (refundStep oid rd acc a)
    exact ⟨e1 ++ e2, by rw [h2, h1, List.append_assoc]⟩

/-- A whole refund loop only appends to the log. -/
lemma foldl_refundFold_grows (oid : String) (now : YDate) :
    ∀ (refunds : List Refund) (acc : List RefundRow × Nat),
      ∃ ext, (refunds.foldl (refundFold oid now) acc).1 = acc.1 ++ ext := by
  intro refunds
  induction refunds with
  | nil => exact fun acc => ⟨[], (List.append_nil _).symm⟩
  | cons r rest ih =>
    intro acc
    rw [List.foldl_cons]
    obtain ⟨e1, h1⟩ := foldl_refundStep_grows oid (refundDate now r)
      r.refund_line_items acc
    obtain ⟨e2, h2⟩ := ih (refundFold oid now acc r)
    refine ⟨e1 ++ e2, ?_⟩
    rw [h2]
    unfold refundFold
    rw [h1, List.append_assoc]

/-- After one insert step for a processed item, its triple is in the log. -/
lemma refundStep_covers (oid : String) (rd : DVal) (acc : List RefundRow × Nat)
    (item : RefundItem) (isbn : String) (h : refundItemIsbn? item = some isbn) :
    containsTriple (refundStep oid rd acc item).1 oid isbn rd = true := by
  rw [refundStep_eq_some oid rd acc item isbn h]
  by_cases hc : containsTriple acc.1 oid isbn rd = true
  · rw [if_pos hc]
    exact hc
  · rw [if_neg hc]
    unfold containsTriple
    rw [List.any_append]
    simp

/-- After an item loop, the triple of every processed item is in the log. -/
lemma foldl_refundStep_covers (oid : String) (rd : DVal) :
    ∀ (items : List RefundItem) (acc : List RefundRow × Nat)
      (item : RefundItem) (isbn : String), item ∈ items →
      refundItemIsbn? item = some isbn →
      containsTriple ((items.foldl (refundStep oid rd) acc).1) oid isbn rd = true := by
  intro items
  induction items with
  | nil => intro _ _ _ hmem _; cases hmem
  | cons a rest ih =>
    intro acc item isbn hmem h
    rw [List.foldl_cons]
    rcases List.mem_cons.1 hmem with rfl | hmem2
    · obtain ⟨ext, hext⟩ := foldl_refundStep_grows oid rd rest (refundStep oid rd acc item)
      rw [hext]
      exact containsTriple_append _ _ _ _ _ (refundStep_covers oid rd acc item isbn h)
    · exact ih _ item isbn hmem2 h

/-- After the refund loop, the triple of every processed item of every
refund is in the log. -/
lemma foldl_refundFold_covers (oid : String) (now : YDate) :
    ∀ (refunds : List Refund) (acc : List RefundRow × Nat) (refund : Refund)
      (item : RefundItem) (isbn : String), refund ∈ refunds →
      item ∈ refund.refund_line_items → refundItemIsbn? item = some isbn →
      containsTriple ((refunds.foldl (refundFold oid now) acc).1) oid isbn
        (refundDate now refund) = true := by
  intro refunds
  induction refunds with
  | nil => intro _ _ _ _ hmem _ _; cases hmem
  | cons r rest ih =>
    intro acc refund item isbn hr hi h
    rw [List.foldl_cons]
    rcases List.mem_cons.1 hr with rfl | hr2
    · obtain ⟨ext, hext⟩ := foldl_refundFold_grows oid now rest (refundFold oid now acc refund)
      rw [hext]
      refine containsTriple_append _ _ _ _ _ ?_
      unfold refundFold
      exact foldl_refundStep_covers oid (refundDate now refund)
        refund.refund_line_items acc item isbn hi h
    · exact ih _ refund item isbn hr2 hi h

/-- An insert step whose triple is already present is a no-op. -/
lemma refundStep_noop (oid : String) (rd : DVal) (acc : List RefundRow × Nat)
    (item : RefundItem)
    (h : ∀ isbn, refundItemIsbn? item = some isbn →
      containsTriple acc.1 oid isbn rd = true) :
    refundStep oid rd acc item = acc := by
  cases hi : refundItemIsbn? item with
  | none => exact refundStep_eq_none oid rd acc item hi
  | some isbn =>
    rw [refundStep_eq_some oid rd acc item isbn hi, if_pos (h isbn hi)]

/-- An item loop whose triples are all already present is a no-op. -/
lemma foldl_refundStep_noop (oid : String) (rd : DVal) :
    ∀ (items : List RefundItem) (acc : List RefundRow × Nat),
      (∀ item ∈ items, ∀ isbn, refundItemIsbn? item = some isbn →
        containsTriple acc.1 oid isbn rd = true) →
      items.foldl (refundStep oid rd) acc = acc := by
  intro items
  induction items with
  | nil => intro _ _; rfl
  | cons a rest ih =>
    intro acc h
    rw [List.foldl_cons,
      refundStep_noop oid rd acc a (fun isbn hi => h a (List.mem_cons_self _ _) isbn hi)]
    exact ih acc (fun item hm isbn hi => h item (List.mem_cons_of_mem _ hm) isbn hi)

/-- A refund loop whose triples are all already present is a no-op. -/
lemma foldl_refundFold_noop (oid : String) (now : YDate) :
    ∀ (refunds : List Refund) (acc : List RefundRow × Nat),
      (∀ refund ∈ refunds, ∀ item ∈ refund.refund_line_items, ∀ isbn,
        refundItemIsbn? item = some isbn →
        containsTriple acc.1 oid isbn (refundDate now refund) = true) →
      refunds.foldl (refundFold oid now) acc = acc := by
  intro refunds
  induction refunds with
  | nil => intro _ _; rfl
  | cons r rest ih =>
    intro acc h
    have hr : refundFold oid now acc r = acc := by
      unfold refundFold
      exact foldl_refundStep_noop oid (refundDate now r) r.refund_line_items acc
        (fun item hm isbn hi => h r (List.mem_cons_self _ _) item hm isbn hi)
    rw [List.foldl_cons, hr]
    exact ih acc (fun refund hm item hi isbn hii =>
      h refund (List.mem_cons_of_mem _ hm) item hi isbn hii)

/-- One insert step preserves triple-uniqueness of the log. -/
lemma refundStep_pairwise (oid : String) (rd : DVal)
    (acc : List RefundRow × Nat) (item : RefundItem)
    (h : pairwiseTriple acc.1) : pairwiseTriple (refundStep oid rd acc item).1 := by
  cases hi : refundItemIsbn? item with
  | none =>
    rw [refundStep_eq_none oid rd acc item hi]
    exact h
  | some isbn =>
    rw [refundStep_eq_some oid rd acc item isbn hi]
    by_cases hcon : containsTriple acc.1 oid isbn rd = true
    · rw [if_pos hcon]
      exact h
    · rw [if_neg hcon]
      show pairwiseTriple (acc.1 ++ [⟨isbn, oid, item.quantity, rd⟩])
      unfold pairwiseTriple at h ⊢
      rw [List.pairwise_append]
      refine ⟨h, List.pairwise_singleton _ _, ?_⟩
      intro a ha b hb
      rw [List.mem_singleton] at hb
      subst hb
      rintro ⟨h1, h2, h3⟩
      apply hcon
      unfold containsTriple
      exact List.any_eq_true.2 ⟨a, ha, decide_eq_true ⟨h1, h2, h3⟩⟩

/-- An item loop preserves triple-uniqueness of the log. -/
lemma foldl_refundStep_pairwise (oid : String) (rd : DVal) :
    ∀ (items : List RefundItem) (acc : List RefundRow × Nat),
      pairwiseTriple acc.1 →
      pairwiseTriple ((items.foldl (refundStep oid rd) acc).1) := by
  intro items
  induction items with
  | nil => exact fun _ h => h
  | cons a rest ih =>
    intro acc h
    rw [List.foldl_cons]
    exact ih _ (refundStep_pairwise oid rd acc a h)

/-- The refund loop preserves triple-uniqueness of the log. -/
lemma foldl_refundFold_pairwise (oid : String) (now : YDate) :
    ∀ (refunds : List Refund) (acc : List RefundRow × Nat),
      pairwiseTriple acc.1 →
      pairwiseTriple ((refunds.foldl (refundFold oid now) acc).1) := by
  intro refunds
  induction refunds with
  | nil => exact fun _ h => h
  | cons r rest ih =>
    intro acc h
    rw [List.foldl_cons]
    refine ih _ ?_
    unfold refundFold
    exact foldl_refundStep_pairwise oid (refundDate now r) r.refund_line_items acc h

/-- Claim C5: `record_refund` is idempotent on exact redelivery.  For a
payload whose refunds carry their own creation timestamps, replaying the
identical payload returns `false` and leaves the store exactly as the first
delivery left it, and triple-uniqueness of `refund_log` (exactly one row per
(order_id, isbn, refund_date) combination) is preserved by the delivery. -/
theorem record_refund_replay_noop (store : Store) (now now2 : YDate)
    (payload : RefundPayload)
    (hts : ∀ refund ∈ payload.refunds, refund.created_at.truthy = true) :
    record_refund (record_refund store now payload).2 now2 payload =
      (false, (record_refund store now payload).2) ∧
    (pairwiseTriple store.refund_log →
      pairwiseTriple (record_refund store now payload).2.refund_log) := by
  have hrd : ∀ refund ∈ payload.refunds,
      refundDate now2 refund = refundDate now refund := by
    intro r hr
    unfold refundDate
    rw [if_pos (hts r hr), if_pos (hts r hr)]
  cases horS : orS payload.id payload.order_id with
  | none =>
    simp only [record_refund, horS]
    exact ⟨trivial, fun h => h⟩
  | some oid =>
    by_cases hoid : oid = ""
    · simp only [record_refund, horS, if_pos hoid]
      exact ⟨trivial, fun h => h⟩
    · by_cases hre : payload.refunds = []
      · simp only [record_refund, horS, if_neg hoid, if_pos hre]
        exact ⟨trivial, fun h => h⟩
      · simp only [record_refund, horS, if_neg hoid, if_neg hre]
        have hcov : ∀ refund ∈ payload.refunds, ∀ item ∈ refund.refund_line_items,
            ∀ isbn, refundItemIsbn? item = some isbn →
            containsTriple
              ((payload.refunds.foldl (refundFold oid now) (store.refund_log, 0)).1)
              oid isbn (refundDate now2 refund) = true := by
          intro r hr i hi isbn h
          rw [hrd r hr]
          exact foldl_refundFold_covers oid now payload.refunds
            (store.refund_log, 0) r i isbn hr hi h
        have hfold2 : payload.refunds.foldl (refundFold oid now2)
            ((payload.refunds.foldl (refundFold oid now) (store.refund_log, 0)).1, 0) =
            ((payload.refunds.foldl (refundFold oid now) (store.refund_log, 0)).1, 0) := by
          refine foldl_refundFold_noop oid now2 payload.refunds _ ?_
          intro refund hm item hi isbn hii
          exact hcov refund hm item hi isbn hii
        constructor
        · simp [hfold2]
        · intro hpw
          exact foldl_refundFold_pairwise oid now payload.refunds
            (store.refund_log, 0) hpw

/-- An anomaly insert keeps the `existing` set in sync with the log pairs. -/
lemma anomalyInsert_sync (today : YDate) (isbn : String)
    (acc : List AnomalyRow × List (String × String)) (reason : String)
    (h : acc.2 = acc.1.map (fun a => (a.isbn, a.reason))) :
    (anomalyInsert today isbn acc reason).2 =
      (anomalyInsert today isbn acc reason).1.map (fun a => (a.isbn, a.reason)) := by
  unfold anomalyInsert
  split
  · exact h
  · simp [h]

/-- A reason loop keeps the `existing` set in sync with the log pairs. -/
lemma foldl_anomalyInsert_sync (today : YDate) (isbn : String) :
    ∀ (reasons : List String) (acc : List AnomalyRow × List (String × String)),
      acc.2 = acc.1.map (fun a => (a.isbn, a.reason)) →
      (reasons.foldl (anomalyInsert today isbn) acc).2 =
        (reasons.foldl (anomalyInsert today isbn) acc).1.map
          (fun a => (a.isbn, a.reason)) := by
  intro reasons
  induction reasons with
  | nil => exact fun _ h => h
  | cons r rest ih =>
    intro acc h
    rw [List.foldl_cons]
    exact ih _ (anomalyInsert_sync today isbn acc r h)

/-- The product loop keeps the `existing` set in sync with the log pairs. -/
lemma foldl_anomalyProduct_sync (today : YDate) (released : List String) :
    ∀ (products : List PreorderRow)
      (acc : List AnomalyRow × List (String × String)),
      acc.2 = acc.1.map (fun a => (a.isbn, a.reason)) →
      (products.foldl (anomalyProduct today released) acc).2 =
        (products.foldl (anomalyProduct today released) acc).1.map
          (fun a => (a.isbn, a.reason)) := by
  intro products
  induction products with
  | nil => exact fun _ h => h
  | cons p rest ih =>
    intro acc h
    rw [List.foldl_cons]
    exact ih _ (foldl_anomalyInsert_sync today p.isbn _ acc h)

/-- After an anomaly insert, the inserted pair is in the `existing` set. -/
lemma anomalyInsert_covers (today : YDate) (isbn : String)
    (acc : List AnomalyRow × List (String × String)) (reason : String) :
    (isbn, reason) ∈ (anomalyInsert today isbn acc reason).2 := by
  unfold anomalyInsert
  split
  next hc =>
    obtain ⟨pr, hpr, hd⟩ := List.any_eq_true.1 hc
    exact (of_decide_eq_true hd) ▸ hpr
  next hc => exact List.mem_append_right _ (List.mem_singleton_self _)

/-- An anomaly insert only grows the `existing` set. -/
lemma anomalyInsert_mono (today : YDate) (isbn : String)
    (acc : List AnomalyRow × List (String × String)) (reason : String)
    (pr : String × String) (h : pr ∈ acc.2) :
    pr ∈ (anomalyInsert today isbn acc reason).2 := by
  unfold anomalyInsert
  split
  · exact h
  · exact List.mem_append_left _ h

/-- A reason loop only grows the `existing` set. -/
lemma foldl_anomalyInsert_mono (today : YDate) (isbn : String) :
    ∀ (reasons : List String) (acc : List AnomalyRow × List (String × String))
      (pr : String × String), pr ∈ acc.2 →
      pr ∈ (reasons.foldl (anomalyInsert today isbn) acc).2 := by
  intro reasons
  induction reasons with
  | nil => exact fun _ _ h => h
  | cons r rest ih =>
    intro acc pr h
    rw [List.foldl_cons]
    exact ih _ pr (anomalyInsert_mono today isbn acc r pr h)

/-- After a reason loop, every fired pair is in the `existing` set. -/
lemma foldl_anomalyInsert_covers (today : YDate) (isbn : String) :
    ∀ (reasons : List String) (acc : List AnomalyRow × List (String × String))
      (reason : String), reason ∈ reasons →
      (isbn, reason) ∈ (reasons.foldl (anomalyInsert today isbn) acc).2 := by
  intro reasons
  induction reasons with
  | nil => intro _ _ hmem; cases hmem
  | cons r rest ih =>
    intro acc reason hmem
    rw [List.foldl_cons]
    rcases List.mem_cons.1 hmem with rfl | hmem2
    · exact foldl_anomalyInsert_mono today isbn rest _ _
        (anomalyInsert_covers today isbn acc reason)
    · exact ih _ reason hmem2

/-- The product loop only grows the `existing` set. -/
lemma foldl_anomalyProduct_mono (today : YDate) (released : List String) :
    ∀ (products : List PreorderRow)
      (acc : List AnomalyRow × List (String × String))
      (pr : String × String), pr ∈ acc.2 →
      pr ∈ (products.foldl (anomalyProduct today released) acc).2 := by
  intro products
  induction products with
  | nil => exact fun _ _ h => h
  | cons p rest ih =>
    intro acc pr h
    rw [List.foldl_cons]
    exact ih _ pr (foldl_anomalyInsert_mono today p.isbn _ acc pr h)

/-- After the product loop, every fired (isbn, reason) pair is in the
`existing` set. -/
lemma foldl_anomalyProduct_covers (today : YDate) (released : List String) :
    ∀ (products : List PreorderRow)
      (acc : List AnomalyRow × List (String × String))
      (prod : PreorderRow) (reason : String), prod ∈ products →
      reason ∈ anomalyReasons today released prod →
      (prod.isbn, reason) ∈ (products.foldl (anomalyProduct today released) acc).2 := by
  intro products
  induction products with
  | nil => intro _ _ _ hmem _; cases hmem
  | cons p rest ih =>
    intro acc prod reason hmem hr
    rw [List.foldl_cons]
    rcases List.mem_cons.1 hmem with rfl | hmem2
    · exact foldl_anomalyProduct_mono today released rest _ _
        (foldl_anomalyInsert_covers today prod.isbn _ acc reason hr)
    · exact ih _ prod reason hmem2 hr

/-- An anomaly insert whose pair is already present is a no-op. -/
lemma anomalyInsert_noop (today : YDate) (isbn : String)
    (acc : List AnomalyRow × List (String × String)) (reason : String)
    (h : (isbn, reason) ∈ acc.2) :
    anomalyInsert today isbn acc reason = acc := by
  unfold anomalyInsert
  rw [if_pos (List.any_eq_true.2 ⟨(isbn, reason), h, decide_eq_true rfl⟩)]

/-- A reason loop whose pairs are all present is a no-op. -/
lemma foldl_anomalyInsert_noop (today : YDate) (isbn : String) :
    ∀ (reasons : List String) (acc : List AnomalyRow × List (String × String)),
      (∀ reason ∈ reasons, (isbn, reason) ∈ acc.2) →
      reasons.foldl (anomalyInsert today isbn) acc = acc := by
  intro reasons
  induction reasons with
  | nil => intro _ _; rfl
  | cons r rest ih =>
    intro acc h
    rw [List.foldl_cons, anomalyInsert_noop today isbn acc r (h r (List.mem_cons_self _ _))]
    exact ih acc (fun reason hm => h reason (List.mem_cons_of_mem _ hm))

/-- A product loop whose fired pairs are all present is a no-op. -/
lemma foldl_anomalyProduct_noop (today : YDate) (released : List String) :
    ∀ (products : List PreorderRow)
      (acc : List AnomalyRow × List (String × String)),
      (∀ prod ∈ products, ∀ reason ∈ anomalyReasons today released prod,
        (prod.isbn, reason) ∈ acc.2) →
      products.foldl (anomalyProduct today released) acc = acc := by
  intro products
  induction products with
  | nil => intro _ _; rfl
  | cons p rest ih =>
    intro acc h
    have hp : anomalyProduct today released acc p = acc := by
      unfold anomalyProduct
      exact foldl_anomalyInsert_noop today p.isbn _ acc
        (fun reason hm => h p (List.mem_cons_self _ _) reason hm)
    rw [List.foldl_cons, hp]
    exact ih acc (fun prod hm reason hr => h prod (List.mem_cons_of_mem _ hm) reason hr)

/-- Claim C6: `log_anomalies` is idempotent over unchanged data.  Scanning a
second time, with the same scan date, over the store the first scan produced
returns that store exactly: zero additional `anomalies_log` rows and no
modification (no re-timestamping) of the rows already logged. -/
theorem log_anomalies_idempotent (store : Store) (today : YDate) :
    log_anomalies (log_anomalies store today) today = log_anomalies store today := by
  unfold log_anomalies
  dsimp only
  have hsync := foldl_anomalyProduct_sync today store.releases
    (store.preorders.filter (fun p => p.tagged_preorder))
    (store.anomalies_log, store.anomalies_log.map (fun a => (a.isbn, a.reason)))
    rfl
  have key : (store.preorders.filter (fun p => p.tagged_preorder)).foldl
      (anomalyProduct today store.releases)
      (((store.preorders.filter (fun p => p.tagged_preorder)).foldl
          (anomalyProduct today store.releases)
          (store.anomalies_log,
           store.anomalies_log.map (fun a => (a.isbn, a.reason)))).1,
       ((store.preorders.filter (fun p => p.tagged_preorder)).foldl
          (anomalyProduct today store.releases)
          (store.anomalies_log,
           store.anomalies_log.map (fun a => (a.isbn, a.reason)))).1.map
         (fun a => (a.isbn, a.reason))) =
      (((store.preorders.filter (fun p => p.tagged_preorder)).foldl
          (anomalyProduct today store.releases)
          (store.anomalies_log,
           store.anomalies_log.map (fun a => (a.isbn, a.reason)))).1,
       ((store.preorders.filter (fun p => p.tagged_preorder)).foldl
          (anomalyProduct today store.releases)
          (store.anomalies_log,
           store.anomalies_log.map (fun a => (a.isbn, a.reason)))).1.map
         (fun a => (a.isbn, a.reason))) := by
    apply foldl_anomalyProduct_noop
    intro prod hp reason hr
    have hc := foldl_anomalyProduct_covers today store.releases
      (store.preorders.filter (fun p => p.tagged_preorder))
      (store.anomalies_log, store.anomalies_log.map (fun a => (a.isbn, a.reason)))
      prod reason hp hr
    rw [hsync] at hc
    exact hc
  rw [key]

/-- Unfolding equation of the aggregation loop on a cons cell. -/
lemma presalesTotals_cons (o : OrderRow) (pd : DVal)
    (rest : List (OrderRow × DVal)) (acc : List (String × Int)) :
    presalesTotals ((o, pd) :: rest) acc =
      match presalesStep acc o pd with
      | .error e => .error e
      | .ok acc2 => presalesTotals rest acc2 := rfl

/-- The aggregation loop splits over an append of its row list. -/
lemma presalesTotals_append (xs ys : List (OrderRow × DVal)) :
    ∀ acc, presalesTotals (xs ++ ys) acc =
      match presalesTotals xs acc with
      | .error e => .error e
      | .ok a => presalesTotals ys a := by
  induction xs with
  | nil => intro acc; rfl
  | cons hd rest ih =>
    intro acc
    obtain ⟨o, pd⟩ := hd
    rw [List.cons_append, presalesTotals_cons, presalesTotals_cons]
    cases hs : presalesStep acc o pd with
    | error e => rfl
    | ok acc2 => exact ih acc2

/-- Rows on which the step is a no-op contribute nothing to the loop. -/
lemma presalesTotals_skip (ys : List (OrderRow × DVal)) :
    ∀ rows : List (OrderRow × DVal),
      (∀ r ∈ rows, ∀ acc, presalesStep acc r.1 r.2 = .ok acc) →
      ∀ acc, presalesTotals (rows ++ ys) acc = presalesTotals ys acc := by
  intro rows
  induction rows with
  | nil => intro _ acc; rfl
  | cons hd rest ih =>
    intro h acc
    obtain ⟨o, pd⟩ := hd
    rw [List.cons_append, presalesTotals_cons,
      h (o, pd) (List.mem_cons_self _ _) acc]
    exact ih (fun r hr acc2 => h r (List.mem_cons_of_mem _ hr) acc2) acc

/-- Claim C9: orders dated on or after a title's pub date contribute nothing
to the stored presale quantity.  Removing such an order row from `orders`
leaves the `presales_log` computed by `log_presales` unchanged (including the
raising behaviour), so only quantities of orders dated strictly before the
pub date are summed. -/
theorem log_presales_postpub_no_contribution (store : Store) (now : YDate)
    (l1 l2 : List OrderRow) (o : OrderRow)
    (hskip : ∀ p ∈ store.preorders, p.isbn = o.isbn →
      ∃ od pdd, fromiso o.order_date = .ok od ∧ fromiso p.pub_date = .ok pdd ∧
        YDate.ble pdd od = true) :
    (log_presales { store with orders := l1 ++ o :: l2 } now).map
        (fun s => s.presales_log) =
      (log_presales { store with orders := l1 ++ l2 } now).map
        (fun s => s.presales_log) := by
  have hchunk : ∀ r ∈ (store.preorders.filter (fun p => p.isbn = o.isbn)).map
      (fun p => (o, p.pub_date)), ∀ acc, presalesStep acc r.1 r.2 = .ok acc := by
    intro r hr acc
    obtain ⟨p, hp, rfl⟩ := List.mem_map.1 hr
    obtain ⟨od, pdd, hod, hpdd, hble⟩ :=
      hskip p (List.mem_filter.1 hp).1 (of_decide_eq_true (List.mem_filter.1 hp).2)
    have hpd : ¬(p.pub_date = DVal.null) := by
      intro he
      rw [he] at hpdd
      have hnull : fromiso DVal.null = Except.error "ValueError" := rfl
      rw [hnull] at hpdd
      cases hpdd
    show presalesStep acc o p.pub_date = .ok acc
    unfold presalesStep
    rw [if_neg hpd, hod, hpdd]
    show (if YDate.ble pdd od = true then Except.ok acc
          else Except.ok (bumpTotal acc o.isbn o.qty)) = Except.ok acc
    rw [if_pos hble]
  have hj1 : presalesJoin { store with orders := l1 ++ o :: l2 } =
      presalesJoin { store with orders := l1 } ++
      ((store.preorders.filter (fun p => p.isbn = o.isbn)).map
          (fun p => (o, p.pub_date)) ++
        presalesJoin { store with orders := l2 }) := by
    unfold presalesJoin
    rw [List.flatMap_append, List.flatMap_cons]
  have hj2 : presalesJoin { store with orders := l1 ++ l2 } =
      presalesJoin { store with orders := l1 } ++
      presalesJoin { store with orders := l2 } := by
    unfold presalesJoin
    rw [List.flatMap_append]
  have htot : presalesTotals (presalesJoin { store with orders := l1 ++ o :: l2 }) [] =
      presalesTotals (presalesJoin { store with orders := l1 ++ l2 }) [] := by
    rw [hj1, hj2, presalesTotals_append, presalesTotals_append]
    simp only [presalesTotals_skip (presalesJoin { store with orders := l2 }) _ hchunk]
  unfold log_presales
  rw [htot]
  cases presalesTotals (presalesJoin { store with orders := l1 ++ l2 }) [] with
  | error e => rfl
  | ok totals => rfl

/-- A store for the witness of C9: one preorder title and three orders, two
before and one after its pub date. -/
def presalesDemoStore : Store :=
  { emptyStore with
    preorders := [⟨"1111111111111", "T", "V", .dt ⟨2024, 1, 10⟩, true, true, none⟩]
    orders := [⟨"1111111111111", 2, .dt ⟨2024, 1, 5⟩⟩,
      ⟨"1111111111111", 5, .dt ⟨2024, 1, 15⟩⟩,
      ⟨"1111111111111", 1, .str "2024-01-08"⟩] }

/-- Witness for C9: dropping the post-pub-date order (qty 5) leaves the
computed `presales_log` unchanged, and the stored total is the pre-pub sum. -/
theorem log_presales_postpub_no_contribution_witness :
    (log_presales presalesDemoStore ⟨2024, 2, 1⟩).map (fun s => s.presales_log) =
      (log_presales { presalesDemoStore with
          orders := [⟨"1111111111111", 2, .dt ⟨2024, 1, 5⟩⟩,
            ⟨"1111111111111", 1, .str "2024-01-08"⟩] } ⟨2024, 2, 1⟩).map
        (fun s => s.presales_log) ∧
    (log_presales presalesDemoStore ⟨2024, 2, 1⟩).map (fun s => s.presales_log) =
      .ok [⟨"1111111111111", 3, ⟨2024, 2, 1⟩⟩] :=
  ⟨log_presales_postpub_no_contribution presalesDemoStore ⟨2024, 2, 1⟩
      [⟨"1111111111111", 2, .dt ⟨2024, 1, 5⟩⟩]
      [⟨"1111111111111", 1, .str "2024-01-08"⟩]
      ⟨"1111111111111", 5, .dt ⟨2024, 1, 15⟩⟩
      (by
        intro p hp hi
        refine ⟨⟨2024, 1, 15⟩, ⟨2024, 1, 10⟩, rfl, ?_, by decide⟩
        rcases List.mem_singleton.1 hp with rfl
        rfl),
    by rfl⟩

/-- A fold is unchanged by a middle element on which the step is the
identity. -/
lemma foldl_skip_middle {α β : Type} (f : β → α → β) (l1 l2 : List α) (a : α)
    (h : ∀ acc, f acc a = acc) (init : β) :
    (l1 ++ a :: l2).foldl f init = (l1 ++ l2).foldl f init := by
  rw [List.foldl_append, List.foldl_append, List.foldl_cons, h]

/-- A fold is unchanged by replacing a middle element with one on which the
step agrees. -/
lemma foldl_congr_middle {α β : Type} (f : β → α → β) (l1 l2 : List α)
    (a b : α) (h : ∀ acc, f acc a = f acc b) (init : β) :
    (l1 ++ a :: l2).foldl f init = (l1 ++ b :: l2).foldl f init := by
  rw [List.foldl_append, List.foldl_append, List.foldl_cons, List.foldl_cons, h]

/-- A missing or falsy resolved isbn, or a nonpositive quantity, makes the
refund item guard skip the item. -/
lemma refundItemIsbn?_eq_none (item : RefundItem)
    (h : truthyS (orS item.line_item.barcode item.line_item.isbn) = false ∨
      item.quantity ≤ 0) :
    refundItemIsbn? item = none := by
  unfold refundItemIsbn?
  cases ho : orS item.line_item.barcode item.line_item.isbn with
  | none => rfl
  | some s =>
    rcases h with h | h
    · have hs : s = "" := by
        rw [ho] at h
        simpa [truthyS] using h
      show (if s = "" ∨ item.quantity ≤ 0 then none else some s) = none
      rw [if_pos (Or.inl hs)]
    · show (if s = "" ∨ item.quantity ≤ 0 then none else some s) = none
      rw [if_pos (Or.inr h)]

/-- Equation lemma: a cancellation step on an item without resolved isbn. -/
lemma cancelStep_eq_none (oid : String) (ca : DVal)
    (acc : List CancelRow × Nat) (item : CLineItem)
    (h : orS item.barcode item.isbn = none) :
    cancelStep oid ca acc item = acc := by
  unfold cancelStep
  rw [h]

/-- Equation lemma: a cancellation step on an item with resolved isbn. -/
lemma cancelStep_eq_some (oid : String) (ca : DVal)
    (acc : List CancelRow × Nat) (item : CLineItem) (isbn : String)
    (h : orS item.barcode item.isbn = some isbn) :
    cancelStep oid ca acc item =
      if isbn = "" ∨ item.quantity.getD 0 ≤ 0 then acc
      else if acc.1.any (fun r => decide (r.order_id = oid ∧ r.isbn = isbn)) then acc
      else (acc.1 ++ [⟨isbn, oid, item.quantity.getD 0, ca⟩], acc.2 + 1) := by
  unfold cancelStep
  rw [h]

/-- A malformed line item (missing isbn or nonpositive quantity) is skipped
by the cancellation step. -/
lemma cancelStep_skip (oid : String) (ca : DVal) (acc : List CancelRow × Nat)
    (item : CLineItem)
    (h : truthyS (orS item.barcode item.isbn) = false ∨
      item.quantity.getD 0 ≤ 0) :
    cancelStep oid ca acc item = acc := by
  cases ho : orS item.barcode item.isbn with
  | none => exact cancelStep_eq_none oid ca acc item ho
  | some s =>
    rw [cancelStep_eq_some oid ca acc item s ho]
    rcases h with h | h
    · have hs : s = "" := by
        rw [ho] at h
        simpa [truthyS] using h
      rw [if_pos (Or.inl hs)]
    · rw [if_pos (Or.inr h)]

/-- Equation lemma: a sales step on an item without resolved isbn. -/
lemma salesStep_eq_none (pids : List String) (oid : Option String)
    (odate : DVal) (acc : List SaleRow × Nat) (item : SLineItem)
    (h : orS item.barcode item.isbn = none) :
    salesStep pids oid odate acc item = acc := by
  unfold salesStep
  rw [h]

/-- Equation lemma: a sales step on an item with resolved isbn. -/
lemma salesStep_eq_some (pids : List String) (oid : Option String)
    (odate : DVal) (acc : List SaleRow × Nat) (item : SLineItem) (isbn : String)
    (h : orS item.barcode item.isbn = some isbn) :
    salesStep pids oid odate acc item =
      if isbn = "" ∨ pids.contains isbn then acc
      else if acc.1.any (fun r => sqlEqOpt r.order_id oid && decide (r.isbn = isbn)) then acc
      else (acc.1 ++ [⟨isbn, oid, item.quantity.getD 1, odate⟩], acc.2 + 1) := by
  unfold salesStep
  rw [h]

/-- An item without resolvable isbn is skipped by the sales step. -/
lemma salesStep_skip (pids : List String) (oid : Option String) (odate : DVal)
    (acc : List SaleRow × Nat) (item : SLineItem)
    (h : truthyS (orS item.barcode item.isbn) = false) :
    salesStep pids oid odate acc item = acc := by
  cases ho : orS item.barcode item.isbn with
  | none => exact salesStep_eq_none pids oid odate acc item ho
  | some s =>
    rw [salesStep_eq_some pids oid odate acc item s ho]
    have hs : s = "" := by
      rw [ho] at h
      simpa [truthyS] using h
    rw [if_pos (Or.inl hs)]

/-- Equation lemma: the presales loop on an item without resolved isbn. -/
lemma record_presales_go_noisbn (now : YDate) (log : List PresaleRow)
    (item : PresaleItem) (rest : List PresaleItem)
    (h : orS item.barcode item.isbn = none) :
    record_presales_go now log (item :: rest) = record_presales_go now log rest := by
  conv_lhs => unfold record_presales_go
  rw [h]

/-- Equation lemma: the presales loop on an item whose resolved isbn is the
empty string. -/
lemma record_presales_go_empty (now : YDate) (log : List PresaleRow)
    (item : PresaleItem) (rest : List PresaleItem)
    (h : orS item.barcode item.isbn = some "") :
    record_presales_go now log (item :: rest) = record_presales_go now log rest := by
  conv_lhs => unfold record_presales_go
  rw [h]
  rfl

/-- Equation lemma: the presales loop on an item with a resolved isbn. -/
lemma record_presales_go_some (now : YDate) (log : List PresaleRow)
    (item : PresaleItem) (rest : List PresaleItem) (isbn : String)
    (h : orS item.barcode item.isbn = some isbn) :
    record_presales_go now log (item :: rest) =
      (if isbn = "" then record_presales_go now log rest
       else
         match item.order_id with
         | none => .error "KeyError: order_id"
         | some oid =>
           record_presales_go now
             (if log.any (fun r => decide (r.isbn = isbn ∧ r.order_id = oid)) then log
              else log ++ [⟨isbn, oid, item.qty.getD 1, item.order_date.getD (.dt now)⟩])
             rest) := by
  conv_lhs => unfold record_presales_go
  rw [h]

/-- An item without resolvable isbn is skipped individually by the presales
loop, wherever it sits in the batch. -/
lemma record_presales_go_skip (now : YDate) (item : PresaleItem)
    (hbad : truthyS (orS item.barcode item.isbn) = false) :
    ∀ (l1 : List PresaleItem) (log : List PresaleRow) (l2 : List PresaleItem),
      record_presales_go now log (l1 ++ item :: l2) =
        record_presales_go now log (l1 ++ l2) := by
  intro l1
  induction l1 with
  | nil =>
    intro log l2
    show record_presales_go now log (item :: l2) = record_presales_go now log l2
    cases ho : orS item.barcode item.isbn with
    | none => exact record_presales_go_noisbn now log item l2 ho
    | some s =>
      have hs : s = "" := by
        rw [ho] at hbad
        simpa [truthyS] using hbad
      subst hs
      exact record_presales_go_empty now log item l2 ho
  | cons a t ih =>
    intro log l2
    rw [List.cons_append, List.cons_append]
    cases ho : orS a.barcode a.isbn with
    | none =>
      rw [record_presales_go_noisbn now log a _ ho,
        record_presales_go_noisbn now log a _ ho]
      exact ih log l2
    | some s =>
      rw [record_presales_go_some now log a _ s ho,
        record_presales_go_some now log a _ s ho]
      by_cases hse : s = ""
      · rw [if_pos hse, if_pos hse]
        exact ih log l2
      · rw [if_neg hse, if_neg hse]
        cases hoi : a.order_id with
        | none => rfl
        | some oid => exact ih _ l2

/-- Claim C7 (counterexample to the claim as stated): an item with a barcode
but no `order_id` key is a malformed item with a missing identifier field,
yet `record_presales` raises `KeyError` on it (`item["order_id"]`), aborting
the batch — the following well-formed item is not processed. -/
theorem record_presales_keyerror_cex :
    truthyS (orS (some "9780000000000") none) = true ∧
    record_presales emptyStore ⟨2024, 1, 1⟩
        [⟨some "9780000000000", none, none, none, none⟩,
         ⟨some "9780000000001", none, some "o1", some 1, none⟩] =
      .error "KeyError: order_id" :=
  ⟨by decide, rfl⟩

/-- Claim C7 (amended): every ingestion handler skips a line item lacking a
resolvable isbn individually (and `record_cancellation`/`record_refund` also
skip nonpositive quantities), processing the rest of the batch exactly as if
the item were absent; `record_presales`, however, raises on an item that has
an isbn but no `order_id` key, so the skip guarantee holds for it only for
items whose defect is the missing isbn. -/
theorem ingestion_handlers_skip_malformed :
    (∀ (store : Store) (now : YDate) (l1 l2 : List PresaleItem)
        (item : PresaleItem),
      truthyS (orS item.barcode item.isbn) = false →
      record_presales store now (l1 ++ item :: l2) =
        record_presales store now (l1 ++ l2)) ∧
    (∀ (store : Store) (now : YDate) (pl : SalesPayload)
        (l1 l2 : List SLineItem) (item : SLineItem),
      truthyS (orS item.barcode item.isbn) = false →
      record_sales store now { pl with line_items := l1 ++ item :: l2 } =
        record_sales store now { pl with line_items := l1 ++ l2 }) ∧
    (∀ (store : Store) (now : YDate) (pl : CancelPayload)
        (l1 l2 : List CLineItem) (item : CLineItem),
      truthyS (orS item.barcode item.isbn) = false ∨
        item.quantity.getD 0 ≤ 0 →
      record_cancellation store now { pl with line_items := l1 ++ item :: l2 } =
        record_cancellation store now { pl with line_items := l1 ++ l2 }) ∧
    (∀ (store : Store) (now : YDate) (pl : RefundPayload) (r1 r2 : List Refund)
        (refund : Refund) (m1 m2 : List RefundItem) (item : RefundItem),
      truthyS (orS item.line_item.barcode item.line_item.isbn) = false ∨
        item.quantity ≤ 0 →
      record_refund store now
          { pl with refunds :=
              r1 ++ { refund with refund_line_items := m1 ++ item :: m2 } :: r2 } =
        record_refund store now
          { pl with refunds :=
              r1 ++ { refund with refund_line_items := m1 ++ m2 } :: r2 }) := by
  refine ⟨?_, ?_, ?_, ?_⟩
  · intro store now l1 l2 item hbad
    unfold record_presales
    rw [record_presales_go_skip now item hbad l1 store.presales l2]
  · intro store now pl l1 l2 item hbad
    have hfold := foldl_skip_middle
      (salesStep (store.preorders.map (fun p => p.isbn)) (orS pl.id pl.order_id)
        (orD pl.created_at (orD pl.order_date (.dt now))))
      l1 l2 item (fun acc => salesStep_skip _ _ _ acc item hbad)
      (store.sales_log, 0)
    simp only [record_sales]
    rw [hfold]
  · intro store now pl l1 l2 item hbad
    cases horS : orS pl.id pl.order_id with
    | none => simp only [record_cancellation, horS]
    | some oid =>
      by_cases hoid : oid = ""
      · simp only [record_cancellation, horS, if_pos hoid]
      · have hfold := foldl_skip_middle
          (cancelStep oid (if pl.cancelled_at.truthy then pl.cancelled_at else .dt now))
          l1 l2 item (fun acc => cancelStep_skip oid _ acc item hbad)
          (store.cancellation_log, 0)
        by_cases hl : l1 ++ l2 = ([] : List CLineItem)
        · obtain ⟨rfl, rfl⟩ := List.append_eq_nil.1 hl
          simp only [record_cancellation, horS, if_neg hoid]
          rw [if_pos hl, List.nil_append, List.foldl_cons,
            cancelStep_skip oid _ (store.cancellation_log, 0) item hbad]
          rfl
        · simp only [record_cancellation, horS, if_neg hoid]
          rw [if_neg (by simp : ¬(l1 ++ item :: l2 = [])), if_neg hl, hfold]
  · intro store now pl r1 r2 refund m1 m2 item hbad
    have hnone : refundItemIsbn? item = none := refundItemIsbn?_eq_none item hbad
    cases horS : orS pl.id pl.order_id with
    | none => simp only [record_refund, horS]
    | some oid =>
      by_cases hoid : oid = ""
      · simp only [record_refund, horS, if_pos hoid]
      · have hstep : ∀ acc : List RefundRow × Nat,
            refundFold oid now acc
                { refund with refund_line_items := m1 ++ item :: m2 } =
              refundFold oid now acc
                { refund with refund_line_items := m1 ++ m2 } := by
          intro acc
          unfold refundFold
          exact foldl_skip_middle _ m1 m2 item
            (fun acc2 => refundStep_eq_none oid _ acc2 item hnone) acc
        have hfold := foldl_congr_middle (refundFold oid now) r1 r2
          { refund with refund_line_items := m1 ++ item :: m2 }
          { refund with refund_line_items := m1 ++ m2 } hstep (store.refund_log, 0)
        simp only [record_refund, horS, if_neg hoid]
        rw [if_neg (by simp :
            ¬(r1 ++ { refund with refund_line_items := m1 ++ item :: m2 } :: r2 = [])),
          if_neg (by simp :
            ¬(r1 ++ { refund with refund_line_items := m1 ++ m2 } :: r2 = [])),
          hfold]

/-- Witness for the amended C7: each handler on a concrete two-item batch
with one malformed item equals the handler on the batch without it. -/
theorem ingestion_handlers_skip_malformed_witness :
    record_presales emptyStore ⟨2024, 1, 1⟩
        [⟨none, none, some "o1", some 1, none⟩,
         ⟨some "9780000000001", none, some "o1", some 1, none⟩] =
      record_presales emptyStore ⟨2024, 1, 1⟩
        [⟨some "9780000000001", none, some "o1", some 1, none⟩] ∧
    record_sales emptyStore ⟨2024, 1, 1⟩
        ⟨some "o2", none, .null, .null,
          [⟨none, none, some 1⟩, ⟨some "222", none, some 1⟩]⟩ =
      record_sales emptyStore ⟨2024, 1, 1⟩
        ⟨some "o2", none, .null, .null, [⟨some "222", none, some 1⟩]⟩ ∧
    record_cancellation emptyStore ⟨2024, 1, 1⟩
        ⟨some "o3", none, .null, [⟨some "333", none, some 0⟩,
          ⟨some "444", none, some 2⟩]⟩ =
      record_cancellation emptyStore ⟨2024, 1, 1⟩
        ⟨some "o3", none, .null, [⟨some "444", none, some 2⟩]⟩ ∧
    record_refund emptyStore ⟨2024, 1, 1⟩
        ⟨some "o4", none, [⟨.str "2024-01-02",
          [⟨⟨none, none⟩, 1⟩, ⟨⟨some "555", none⟩, 1⟩]⟩]⟩ =
      record_refund emptyStore ⟨2024, 1, 1⟩
        ⟨some "o4", none, [⟨.str "2024-01-02", [⟨⟨some "555", none⟩, 1⟩]⟩]⟩ :=
  ⟨ingestion_handlers_skip_malformed.1 emptyStore ⟨2024, 1, 1⟩ []
      [⟨some "9780000000001", none, some "o1", some 1, none⟩]
      ⟨none, none, some "o1", some 1, none⟩ (by decide),
   ingestion_handlers_skip_malformed.2.1 emptyStore ⟨2024, 1, 1⟩
      ⟨some "o2", none, .null, .null, []⟩ []
      [⟨some "222", none, some 1⟩] ⟨none, none, some 1⟩ (by decide),
   ingestion_handlers_skip_malformed.2.2.1 emptyStore ⟨2024, 1, 1⟩
      ⟨some "o3", none, .null, []⟩ []
      [⟨some "444", none, some 2⟩] ⟨some "333", none, some 0⟩
      (Or.inr (by decide)),
   ingestion_handlers_skip_malformed.2.2.2 emptyStore ⟨2024, 1, 1⟩
      ⟨some "o4", none, []⟩ [] [] ⟨.str "2024-01-02", []⟩ []
      [⟨⟨some "555", none⟩, 1⟩] ⟨⟨none, none⟩, 1⟩ (Or.inl (by decide))⟩

/-- Claim C4: the webhook signature gate.  When the header differs from the
MAC of the raw body the response is 401 with the state untouched, and the
result does not depend on the JSON parser at all (the body is neither parsed
nor dispatched); when the header matches and the body parses, the payload is
dispatched to `process_refund_event` and the response carries the processed
count. -/
theorem handle_order_update_hmac_gate (hmacOf : String → String)
    (parse parse2 : String → Option WPayload) (st : ListenerState)
    (raw_body hmac_header : String) :
    (hmac_header ≠ hmacOf raw_body →
      handle_order_update hmacOf parse st raw_body hmac_header =
        (.unauthorized, st) ∧
      handle_order_update hmacOf parse st raw_body hmac_header =
        handle_order_update hmacOf parse2 st raw_body hmac_header) ∧
    (hmac_header = hmacOf raw_body → ∀ payload, parse raw_body = some payload →
      handle_order_update hmacOf parse st raw_body hmac_header =
        (.ok (process_refund_event st payload).1,
          (process_refund_event st payload).2)) := by
  constructor
  · intro hne
    have hcond : ¬(hmacOf raw_body = hmac_header) := fun h => hne h.symm
    unfold handle_order_update
    rw [if_pos hcond, if_pos hcond]
    exact ⟨rfl, rfl⟩
  · intro heq payload hp
    unfold handle_order_update
    rw [if_neg (not_not_intro heq.symm), hp]

/-- Witness for C4: with a concrete MAC function and parser, a wrong header
is rejected with the state untouched and a correct one dispatches the mock
payload of the listener source. -/
theorem handle_order_update_hmac_gate_witness :
    handle_order_update (fun s => "mac:" ++ s)
        (fun rb => if rb = "body1" then some wDemoPayload else none)
        wEmptyState "body1" "wrong" = (.unauthorized, wEmptyState) ∧
    handle_order_update (fun s => "mac:" ++ s)
        (fun rb => if rb = "body1" then some wDemoPayload else none)
        wEmptyState "body1" "mac:body1" =
      (.ok (process_refund_event wEmptyState wDemoPayload).1,
        (process_refund_event wEmptyState wDemoPayload).2) :=
  ⟨((handle_order_update_hmac_gate (fun s => "mac:" ++ s)
      (fun rb => if rb = "body1" then some wDemoPayload else none)
      (fun _ => none) wEmptyState "body1" "wrong").1 (by decide)).1,
   (handle_order_update_hmac_gate (fun s => "mac:" ++ s)
      (fun rb => if rb = "body1" then some wDemoPayload else none)
      (fun _ => none) wEmptyState "body1" "mac:body1").2 (by decide)
      wDemoPayload (by decide)⟩

/-- Witness for C5: the concrete spec scenario — order o1 with isbns 111
and 222 yields two refund rows, and replay changes nothing. -/
theorem record_refund_replay_noop_witness :
    (∀ refund ∈ refundDemoPayload.refunds, refund.created_at.truthy = true) ∧
    (record_refund emptyStore ⟨2024, 1, 6⟩ refundDemoPayload).2.refund_log.length = 2 ∧
    record_refund (record_refund emptyStore ⟨2024, 1, 6⟩ refundDemoPayload).2
        ⟨2024, 2, 1⟩ refundDemoPayload =
      (false, (record_refund emptyStore ⟨2024, 1, 6⟩ refundDemoPayload).2) :=
  ⟨by decide, by decide,
    (record_refund_replay_noop emptyStore ⟨2024, 1, 6⟩ ⟨2024, 2, 1⟩
      refundDemoPayload (by decide)).1⟩

end NYT
